import Mathlib

/-!
Shallow embedding of the FlowSeer/fail error library (Go).

The model covers the capability-extraction functions (Causes, ExitCode,
HttpStatusCode, Code, Message, UserMessage, Tags, Attributes, Associated),
the Fail record with its accessors and Clone, the Builder (From, setters,
finalization, Wrap), and, for the aliasing-sensitive claims, a small
store-based model of Go slice/map reference semantics.

Go machine integers are modelled as Int (the relevant code only compares
and copies them, so no overflow is observable); Go time.Time is modelled
as Nat (0 = the zero instant); Go interface values that may be nil are
modelled as Option; a Go function that panics is modelled as Except.
-/

namespace FailSpec

/-- A Go `any` attribute value, including the nil interface value. -/
inductive GoVal : Type where
  | vnil : GoVal
  | vstr (s : String) : GoVal
  | vint (n : Int) : GoVal
deriving DecidableEq, Repr

/-- The field set of the Fail struct from src/fail.go: timestamp, messages,
domain, code, exit code, HTTP status code, causes, associated errors,
tags (the key set of the Go tag map), attributes, and tracing ids.
The parameter ε ties the recursive knot with Err below. -/
structure FailData (ε : Type) where
  time : Nat
  msg : String
  userMsg : String
  domain : String
  code : String
  exitCode : Int
  httpStatusCode : Int
  causes : List (Option ε)
  associated : List (Option ε)
  tags : List String
  attrs : List (String × GoVal)
  traceId : String
  spanId : String
deriving Repr

/-- An arbitrary non-Fail Go error value, described by which capability
interfaces its dynamic type implements: a field holding none means the
type assertion for that interface fails, some v means it succeeds and the
method returns v.  msg is the Error() string every error has. -/
structure CustomData (ε : Type) where
  msg : String
  errorMessageCap : Option String
  userMessageCap : Option String
  codeCap : Option String
  exitCodeCap : Option Int
  httpStatusCodeCap : Option Int
  causesCap : Option (List (Option ε))
  unwrapMultiCap : Option (List (Option ε))
  unwrapSingleCap : Option (Option ε)
  causeMethodCap : Option (Option ε)
  tagsCap : Option (List String)
  attributesCap : Option (List (String × GoVal))
  associatedCap : Option (List (Option ε))
deriving Repr

/-- A concrete Go error value: either the library's own Fail struct
(which implements every fail.* capability interface) or some other
error type with an arbitrary subset of the capabilities. -/
inductive Err : Type where
  | fail (f : FailData Err)
  | custom (c : CustomData Err)

/-- Error(): the basic message every Go error exposes. -/
def errorText : Err → String
  | .fail f => f.msg
  | .custom c => c.msg

/-- The ErrorMessage capability probe: Fail implements it (returning msg);
a custom error implements it iff its field says so. -/
def messageCap : Err → Option String
  | .fail f => some f.msg
  | .custom c => c.errorMessageCap

/-- The ErrorUserMessage capability probe. -/
def userMessageCap : Err → Option String
  | .fail f => some f.userMsg
  | .custom c => c.userMessageCap

/-- The ErrorCode capability probe. -/
def codeCap : Err → Option String
  | .fail f => some f.code
  | .custom c => c.codeCap

/-- The ErrorExitCode capability probe. -/
def exitCodeCap : Err → Option Int
  | .fail f => some f.exitCode
  | .custom c => c.exitCodeCap

/-- The ErrorHttpStatusCode capability probe. -/
def httpStatusCodeCap : Err → Option Int
  | .fail f => some f.httpStatusCode
  | .custom c => c.httpStatusCodeCap

/-- The ErrorCauses capability probe: Fail implements it and returns its
causes field as-is (src/fail.go ErrorCauses). -/
def causesCap : Err → Option (List (Option Err))
  | .fail f => some f.causes
  | .custom c => c.causesCap

/-- The Unwrap() []error capability probe: Fail does not implement it. -/
def unwrapMultiCap : Err → Option (List (Option Err))
  | .fail _ => none
  | .custom c => c.unwrapMultiCap

/-- The Unwrap() error capability probe: Fail does not implement it. -/
def unwrapSingleCap : Err → Option (Option Err)
  | .fail _ => none
  | .custom c => c.unwrapSingleCap

/-- The legacy Cause() error capability probe: Fail does not implement it. -/
def causeMethodCap : Err → Option (Option Err)
  | .fail _ => none
  | .custom c => c.causeMethodCap

/-- The ErrorTags capability probe. -/
def tagsCap : Err → Option (List String)
  | .fail f => some f.tags
  | .custom c => c.tagsCap

/-- The ErrorAttributes capability probe. -/
def attributesCap : Err → Option (List (String × GoVal))
  | .fail f => some f.attrs
  | .custom c => c.attributesCap

/-- The ErrorAssociated capability probe. -/
def associatedCap : Err → Option (List (Option Err))
  | .fail f => some f.associated
  | .custom c => c.associatedCap

/-- src/exit_code.go: DefaultExitCode = 1. -/
def DefaultExitCode : Int := 1

/-- src/unnamed/part_009: DefaultHttpStatusCode = 500. -/
def DefaultHttpStatusCode : Int := 500

/-- src/code.go: DefaultErrorCode = ErrCodeUnspecified = "ERR_UNKNOWN". -/
def DefaultErrorCode : String := "ERR_UNKNOWN"

/-- src/causes.go Causes: nil input yields nil; otherwise probe
ErrorCauses, then Unwrap() []error, then Unwrap() error (promoted to a
one-element slice), then Cause() error (promoted likewise), else nil.
The outer none models a nil result slice. -/
def Causes : Option Err → Option (List (Option Err))
  | none => none
  | some e =>
    match causesCap e with
    | some l => some l
    | none =>
      match unwrapMultiCap e with
      | some l => some l
      | none =>
        match unwrapSingleCap e with
        | some u => some [u]
        | none =>
          match causeMethodCap e with
          | some u => some [u]
          | none => none

/-- src/exit_code.go ExitCode: 0 for nil, the capability value if the
error implements ErrorExitCode, otherwise the loop over Causes keeping
the largest capability value of a direct cause, starting from
DefaultExitCode. -/
def ExitCode : Option Err → Int
  | none => 0
  | some e =>
    match exitCodeCap e with
    | some v => v
    | none =>
      ((Causes (some e)).getD []).foldl
        (fun maxExitCode c =>
          match c.bind exitCodeCap with
          | some v => if v > maxExitCode then v else maxExitCode
          | none => maxExitCode)
        DefaultExitCode

/-- src/unnamed/part_009 HttpStatusCode: 200 for nil, the capability value
if implemented, otherwise the loop over Causes keeping the largest
capability value of a direct cause, starting from DefaultHttpStatusCode. -/
def HttpStatusCode : Option Err → Int
  | none => 200
  | some e =>
    match httpStatusCodeCap e with
    | some v => v
    | none =>
      ((Causes (some e)).getD []).foldl
        (fun maxHttpStatusCode c =>
          match c.bind httpStatusCodeCap with
          | some v => if v > maxHttpStatusCode then v else maxHttpStatusCode
          | none => maxHttpStatusCode)
        DefaultHttpStatusCode

/-- src/message.go Message: empty string for nil, the ErrorMessage
capability value if implemented, else Error(). -/
def Message : Option Err → String
  | none => ""
  | some e =>
    match messageCap e with
    | some m => m
    | none => errorText e

/-- src/unnamed/part_012 UserMessage: empty string for nil, the
ErrorUserMessage capability value if implemented, else Error(). -/
def UserMessage : Option Err → String
  | none => ""
  | some e =>
    match userMessageCap e with
    | some m => m
    | none => errorText e

/-- src/tags.go Tags: nil for nil, else the deduplicated ErrorTags
capability value (the Go code rebuilds a set map from the returned
slice), else nil. -/
def Tags : Option Err → List String
  | none => []
  | some e =>
    match tagsCap e with
    | some ts => ts.eraseDups
    | none => []

/-- src/unnamed/part_003 Attributes: empty map for nil, else the
ErrorAttributes capability value when non-nil, else an empty map. -/
def Attributes : Option Err → List (String × GoVal)
  | none => []
  | some e => (attributesCap e).getD []

/-- src/associated.go Associated: nil for nil, else the ErrorAssociated
capability value, else nil. -/
def Associated : Option Err → List (Option Err)
  | none => []
  | some e => (associatedCap e).getD []

/-- Any list Causes can return is built from subterms of the error, so its
size is below the error's size; this justifies the recursion in Code. -/
theorem causes_sizeOf_lt {e : Err} {l : List (Option Err)}
    (h : Causes (some e) = some l) : sizeOf l < sizeOf e := by
  cases e with
  | fail f =>
    obtain ⟨t, m, um, d, cd, ec, hc, cs, as, tg, at', tr, sp⟩ := f
    simp only [Causes, causesCap] at h
    cases h
    simp
    omega
  | custom c =>
    obtain ⟨m, emc, umc, cdc, ecc, hcc, csc, umlc, usc, cmc, tgc, atc, asc⟩ := c
    cases csc with
    | some l' =>
      simp only [Causes, causesCap] at h
      cases h
      simp
      omega
    | none =>
      cases umlc with
      | some l' =>
        simp only [Causes, causesCap, unwrapMultiCap] at h
        cases h
        simp
        omega
      | none =>
        cases usc with
        | some u =>
          simp only [Causes, causesCap, unwrapMultiCap, unwrapSingleCap] at h
          cases h
          simp
          omega
        | none =>
          cases cmc with
          | some u =>
            simp only [Causes, causesCap, unwrapMultiCap, unwrapSingleCap,
              causeMethodCap] at h
            cases h
            simp
            omega
          | none =>
            simp only [Causes, causesCap, unwrapMultiCap, unwrapSingleCap,
              causeMethodCap] at h
            exact Option.noConfusion h

mutual

/-- src/code.go Code: empty string for nil, the ErrorCode capability value
if implemented, otherwise the loop over Causes tracking the code of the
cause with the highest resolved exit code, with a fallback to the first
non-default resolved code while nothing better has been found. -/
def Code : Option Err → String
  | none => ""
  | some e =>
    match codeCap e with
    | some c => c
    | none =>
      match h : Causes (some e) with
      | none => DefaultErrorCode
      | some l => codeGo l 0 DefaultErrorCode
termination_by o => sizeOf o
decreasing_by
  have := causes_sizeOf_lt h
  simp
  omega

/-- The loop body of src/code.go Code over the cause list, carrying the
maxExitCode and maxCode accumulators of the Go for-loop. -/
def codeGo : List (Option Err) → Int → String → String
  | [], _, maxCode => maxCode
  | c :: rest, maxExitCode, maxCode =>
    let causeExitCode := ExitCode c
    let causeCode := Code c
    if causeExitCode > maxExitCode then codeGo rest causeExitCode causeCode
    else if maxCode = DefaultErrorCode ∧ causeCode ≠ DefaultErrorCode then
      codeGo rest maxExitCode causeCode
    else codeGo rest maxExitCode maxCode
termination_by l _ _ => sizeOf l
decreasing_by
  all_goals simp
  all_goals omega

end

/-- src/unnamed/part_006: ErrCodeUnspecified = "ERR_UNKNOWN". -/
def ErrCodeUnspecified : String := "ERR_UNKNOWN"

/-- Modelled from the spec: the reserved placeholder constant EmptyMessage
substituted when a record is finalized without a message.  The constant is
referenced throughout src/message.go but its defining declaration is not
under src/; the spec only requires it to be a fixed non-empty placeholder. -/
def EmptyMessage : String := "EMPTY MESSAGE"

/-- Go declares the Builder as a defined type over Fail
(type Builder Fail, src/message.go), so a builder is a Fail value. -/
abbrev Builder := FailData Err

/-- src/fail.go newFail: default code, exit code and HTTP status code,
fresh empty tag and attribute maps, everything else zero-valued. -/
def newFail (msg : String) : FailData Err :=
  { time := 0, msg := msg, userMsg := "", domain := "",
    code := ErrCodeUnspecified, exitCode := DefaultExitCode,
    httpStatusCode := DefaultHttpStatusCode,
    causes := [], associated := [], tags := [], attrs := [],
    traceId := "", spanId := "" }

/-- src/fail.go Fail.Clone: copies msg, userMsg, code, exitCode,
httpStatusCode and (as fresh slices/maps with equal contents) causes,
associated, tags and attrs; the remaining fields of the composite literal
(time, domain, traceId, spanId) are left at their zero values. -/
def Clone (f : FailData Err) : FailData Err :=
  { time := 0, msg := f.msg, userMsg := f.userMsg, domain := "",
    code := f.code, exitCode := f.exitCode,
    httpStatusCode := f.httpStatusCode,
    causes := f.causes, associated := f.associated,
    tags := f.tags, attrs := f.attrs,
    traceId := "", spanId := "" }

/-- src/message.go New: a builder over newFail(""). -/
def New : Builder := newFail ""

/-- src/message.go From: panics (modelled as Except.error) on a nil
error; clones a Fail directly; otherwise seeds the builder by running
every extraction function over the source error (the tag set built from
Tags(err), the unmentioned fields time, domain, traceId, spanId left at
their zero values). -/
def From : Option Err → Except String Builder
  | none => Except.error "cannot create a Fail from a nil error"
  | some (Err.fail f) => Except.ok (Clone f)
  | some (Err.custom c) =>
    Except.ok
      { time := 0, domain := "",
        msg := Message (some (Err.custom c)),
        userMsg := UserMessage (some (Err.custom c)),
        code := Code (some (Err.custom c)),
        exitCode := ExitCode (some (Err.custom c)),
        httpStatusCode := HttpStatusCode (some (Err.custom c)),
        causes := (Causes (some (Err.custom c))).getD [],
        associated := Associated (some (Err.custom c)),
        tags := Tags (some (Err.custom c)),
        attrs := Attributes (some (Err.custom c)),
        traceId := "", spanId := "" }

/-- src/message.go Builder.Build (first builder variant): substitute
EmptyMessage when no message was set, then return the state as a Fail. -/
def Build (b : Builder) : FailData Err :=
  if b.msg = "" then { b with msg := EmptyMessage } else b

/-- src/message.go Builder.CauseSlice: append the non-nil entries to the
causes list. -/
def CauseSlice (b : Builder) (errs : List (Option Err)) : Builder :=
  { b with causes := b.causes ++ errs.filter (·.isSome) }

/-- src/message.go terminal Builder.Msg (second builder variant): set the
message (EmptyMessage when empty), stamp the current time when the stored
time is zero or in the future, and return the state as a Fail.  The
current instant is passed explicitly as now. -/
def BuilderMsg (now : Nat) (b : Builder) (msg : String) : FailData Err :=
  let b1 := if msg ≠ "" then { b with msg := msg } else { b with msg := EmptyMessage }
  if b1.time = 0 ∨ b1.time > now then { b1 with time := now } else b1

/-- src/message.go and src/shortcut.go Wrap: nil in, nil out; otherwise
New().Cause(err).Msg(msg) built into a Fail error. -/
def Wrap (now : Nat) (err : Option Err) (msg : String) : Option Err :=
  match err with
  | none => none
  | some e => some (Err.fail (BuilderMsg now (CauseSlice New [some e]) msg))

/-!
Reference-semantics model.  Go slices and maps are references into backing
storage; the aliasing claims about accessors and builder setters are about
which operations share that storage.  A Store holds the backing cells for
the three collection shapes in play ([]error slices, the tag map's key
set, and the attribute map); a reference is an index into the matching
pool, and allocation appends a cell. -/
structure Store where
  errSlices : List (List (Option Err))
  tagSets : List (List String)
  attrMaps : List (List (String × GoVal))

def Store.readErr (σ : Store) (r : Nat) : List (Option Err) :=
  σ.errSlices.getD r []

def Store.readTags (σ : Store) (r : Nat) : List String :=
  σ.tagSets.getD r []

def Store.readAttrs (σ : Store) (r : Nat) : List (String × GoVal) :=
  σ.attrMaps.getD r []

def Store.allocErr (σ : Store) (v : List (Option Err)) : Nat × Store :=
  (σ.errSlices.length, { σ with errSlices := σ.errSlices ++ [v] })

def Store.allocTags (σ : Store) (v : List String) : Nat × Store :=
  (σ.tagSets.length, { σ with tagSets := σ.tagSets ++ [v] })

def Store.allocAttrs (σ : Store) (v : List (String × GoVal)) : Nat × Store :=
  (σ.attrMaps.length, { σ with attrMaps := σ.attrMaps ++ [v] })

/-- An in-place mutation performed by a caller through an []error slice
reference it holds (for instance overwriting an element). -/
def Store.writeErr (σ : Store) (r : Nat) (v : List (Option Err)) : Store :=
  { σ with errSlices := σ.errSlices.set r v }

def Store.writeTags (σ : Store) (r : Nat) (v : List String) : Store :=
  { σ with tagSets := σ.tagSets.set r v }

def Store.writeAttrs (σ : Store) (r : Nat) (v : List (String × GoVal)) : Store :=
  { σ with attrMaps := σ.attrMaps.set r v }

/-- The Fail struct with its collection-typed fields as references into a
Store; this is the view of src/fail.go relevant to aliasing.  The Go
Builder is the same struct (type Builder Fail). -/
structure HFail where
  code : String
  causesRef : Nat
  associatedRef : Nat
  tagsRef : Nat
  attrsRef : Nat
deriving Repr, DecidableEq

/-- The record's facets as observed by reading its own references: the
state an inspection of the record sees at this instant. -/
def observe (σ : Store) (f : HFail) :
    String × List (Option Err) × List (Option Err) × List String ×
      List (String × GoVal) :=
  (f.code, σ.readErr f.causesRef, σ.readErr f.associatedRef,
    σ.readTags f.tagsRef, σ.readAttrs f.attrsRef)

/-- src/fail.go Fail.ErrorCauses: returns f.causes itself — the same
slice reference, no copy. -/
def ErrorCausesH (σ : Store) (f : HFail) : Nat × Store :=
  (f.causesRef, σ)

/-- src/fail.go Fail.ErrorAssociated: returns slices.Clone(f.associated)
— a freshly allocated slice with equal contents. -/
def ErrorAssociatedH (σ : Store) (f : HFail) : Nat × Store :=
  σ.allocErr (σ.readErr f.associatedRef)

/-- src/fail.go Fail.ErrorTags: collects the keys of the tag map into a
freshly allocated slice. -/
def ErrorTagsH (σ : Store) (f : HFail) : Nat × Store :=
  σ.allocTags (σ.readTags f.tagsRef)

/-- src/fail.go Fail.ErrorAttributes: returns maps.Clone(f.attrs) — a
freshly allocated map with equal contents. -/
def ErrorAttributesH (σ : Store) (f : HFail) : Nat × Store :=
  σ.allocAttrs (σ.readAttrs f.attrsRef)

/-- Insert a tag into the key set of a Go tag map (set semantics:
added once, insertion position immaterial to the set read). -/
def tagInsert (m : List String) (t : String) : List String :=
  if t ∈ m then m else m ++ [t]

/-- Set a key in a Go attribute map (last write wins). -/
def attrSet (m : List (String × GoVal)) (k : String) (v : GoVal) :
    List (String × GoVal) :=
  if m.any (·.1 = k) then m.map (fun kv => if kv.1 = k then (k, v) else kv)
  else m ++ [(k, v)]

/-- src/message.go Builder.TagSlice: for each non-empty tag the Go code
executes b.tags[tag] = struct{}{} — a write through the builder's tag map
reference — and returns b, whose fields (the reference included) are
unchanged. -/
def TagSliceH (σ : Store) (b : HFail) (tags : List String) : HFail × Store :=
  (b, σ.writeTags b.tagsRef
    (tags.foldl (fun m t => if t ≠ "" then tagInsert m t else m)
      (σ.readTags b.tagsRef)))

/-- src/message.go Builder.AttributeMap: for each entry with a non-empty
key and non-nil value the Go code executes b.attrs[key] = value — a write
through the builder's attribute map reference — and returns b unchanged. -/
def AttributeMapH (σ : Store) (b : HFail) (attrs : List (String × GoVal)) :
    HFail × Store :=
  (b, σ.writeAttrs b.attrsRef
    (attrs.foldl
      (fun m kv => if kv.1 ≠ "" ∧ kv.2 ≠ GoVal.vnil then attrSet m kv.1 kv.2 else m)
      (σ.readAttrs b.attrsRef)))

/-- src/message.go Builder.CauseSlice: b.causes = append(b.causes,
non-nil entries).  Reads through any pre-existing slice header are bounded
by that header's length, so append is modelled by a fresh backing cell
holding the extended contents; the returned builder holds the new
reference and the original keeps the old one. -/
def CauseSliceH (σ : Store) (b : HFail) (errs : List (Option Err)) :
    HFail × Store :=
  let a := σ.allocErr (σ.readErr b.causesRef ++ errs.filter (·.isSome))
  ({ b with causesRef := a.1 }, a.2)

/-- src/message.go Builder.Code: a plain field update on the value
receiver; no map or slice is touched, so the store is unchanged. -/
def CodeH (σ : Store) (b : HFail) (code : String) : HFail × Store :=
  (if code ≠ "" then { b with code := code } else b, σ)

/-- A custom error with the given message and no capability at all. -/
def bareCustom (msg : String) : CustomData Err :=
  { msg := msg, errorMessageCap := none, userMessageCap := none,
    codeCap := none, exitCodeCap := none, httpStatusCodeCap := none,
    causesCap := none, unwrapMultiCap := none, unwrapSingleCap := none,
    causeMethodCap := none, tagsCap := none, attributesCap := none,
    associatedCap := none }

/-- The exit-code capability values exposed by the direct causes of e
(non-nil causes implementing ErrorExitCode). -/
def causeExitCaps (e : Err) : List Int :=
  ((Causes (some e)).getD []).filterMap (fun c => c.bind exitCodeCap)

/-- The Go keep-the-larger loop over optional capability values computes a
left fold of max over the present values. -/
theorem foldl_keepMax (f : Err → Option Int) (l : List (Option Err)) (a : Int) :
    l.foldl
      (fun mx c =>
        match c.bind f with
        | some v => if v > mx then v else mx
        | none => mx) a
    = (l.filterMap (fun c => c.bind f)).foldl max a := by
  induction l generalizing a with
  | nil => rfl
  | cons c rest ih =>
    cases h : c.bind f with
    | none => simp only [List.foldl_cons, List.filterMap_cons, h, ih]
    | some v =>
      have hacc : (if v > a then v else a) = max a v := by
        rcases le_or_lt v a with hv | hv
        · rw [if_neg (not_lt.2 hv), max_eq_left hv]
        · rw [if_pos hv, max_eq_right hv.le]
      simp only [List.foldl_cons, List.filterMap_cons, h, hacc, ih]

/-- C1: for every non-nil error lacking the ErrorExitCode capability,
ExitCode is the maximum of the default 1 and the ErrorExitCode() values of
those direct causes that implement the capability; causes without it
contribute only the default and never lower an already-found value. -/
theorem exitCode_resolves_to_max_of_causes (e : Err)
    (h : exitCodeCap e = none) :
    ExitCode (some e) = (causeExitCaps e).foldl max DefaultExitCode := by
  simp only [ExitCode, h, causeExitCaps]
  exact foldl_keepMax exitCodeCap _ _

def eC1cap : Option Err := some (.custom { bareCustom "a" with exitCodeCap := some 7 })
def eC1low : Option Err := some (.custom { bareCustom "b" with exitCodeCap := some 3 })
def eC1bare : Option Err := some (.custom (bareCustom "c"))
def eC1 : Err := .custom { bareCustom "e" with causesCap := some [eC1low, eC1bare, none, eC1cap] }

theorem exitCode_resolves_to_max_of_causes_witness :
    exitCodeCap eC1 = none ∧
      ExitCode (some eC1) = (causeExitCaps eC1).foldl max DefaultExitCode ∧
      ExitCode (some eC1) = 7 :=
  ⟨rfl, exitCode_resolves_to_max_of_causes eC1 rfl, by decide⟩

/-- C3: an error implementing ErrorExitCode resolves its exit code to
exactly the capability value, with no merging with causes, and the same
short-circuit holds for HttpStatusCode over ErrorHttpStatusCode. -/
theorem explicit_capability_short_circuits (e : Err) :
    (∀ v, exitCodeCap e = some v → ExitCode (some e) = v) ∧
    (∀ w, httpStatusCodeCap e = some w → HttpStatusCode (some e) = w) := by
  constructor
  · intro v hv
    simp [ExitCode, hv]
  · intro w hw
    simp [HttpStatusCode, hw]

def eC3 : Err :=
  .custom
    { bareCustom "e" with
        exitCodeCap := some 9
        httpStatusCodeCap := some 404
        causesCap := some [eC1cap] }

theorem explicit_capability_short_circuits_witness :
    exitCodeCap eC3 = some 9 ∧ httpStatusCodeCap eC3 = some 404 ∧
      ExitCode (some eC3) = 9 ∧ HttpStatusCode (some eC3) = 404 :=
  ⟨rfl, rfl, (explicit_capability_short_circuits eC3).1 9 rfl,
    (explicit_capability_short_circuits eC3).2 404 rfl⟩

/-- C7: for a non-nil error without the ErrorCauses capability, Causes
probes exactly three legacy shapes in order — Unwrap() []error returned
as-is, then Unwrap() error promoted to a one-element slice, then Cause()
promoted to a one-element slice — and returns nil when all are absent. -/
theorem causes_legacy_probe_order (e : Err) (h : causesCap e = none) :
    (∀ l, unwrapMultiCap e = some l → Causes (some e) = some l) ∧
    (unwrapMultiCap e = none →
      ∀ u, unwrapSingleCap e = some u → Causes (some e) = some [u]) ∧
    (unwrapMultiCap e = none → unwrapSingleCap e = none →
      ∀ u, causeMethodCap e = some u → Causes (some e) = some [u]) ∧
    (unwrapMultiCap e = none → unwrapSingleCap e = none →
      causeMethodCap e = none → Causes (some e) = none) := by
  refine ⟨fun l hl => ?_, fun h1 u hu => ?_, fun h1 h2 u hu => ?_,
    fun h1 h2 h3 => ?_⟩ <;> simp [Causes, h, *]

def eC7inner : Option Err := some (.custom (bareCustom "root"))
def eC7 : Err := .custom { bareCustom "e" with unwrapSingleCap := some eC7inner }

theorem causes_legacy_probe_order_witness :
    causesCap eC7 = none ∧ unwrapMultiCap eC7 = none ∧
      Causes (some eC7) = some [eC7inner] :=
  ⟨rfl, rfl, (causes_legacy_probe_order eC7 rfl).2.1 rfl eC7inner rfl⟩

/-- C8: on a nil input every severity-like extractor returns its defined
absent value — Code yields the empty string, ExitCode yields 0 and
HttpStatusCode yields 200 — never the non-nil defaults. -/
theorem nil_error_absent_values :
    Code none = "" ∧ ExitCode none = 0 ∧ HttpStatusCode none = 200 ∧
      Code none ≠ DefaultErrorCode ∧ ExitCode none ≠ DefaultExitCode ∧
      HttpStatusCode none ≠ DefaultHttpStatusCode := by
  refine ⟨?_, rfl, rfl, ?_, by decide, by decide⟩ <;> simp [Code, DefaultErrorCode]

/-- The first resolved code in the list that is not the default sentinel,
or the default sentinel when there is none. -/
def firstNonDefaultCode : List (Option Err) → String
  | [] => DefaultErrorCode
  | c :: rest =>
    if Code c ≠ DefaultErrorCode then Code c else firstNonDefaultCode rest

/-- When no remaining cause beats the running maximum, the loop keeps its
code unless it is still the default, in which case the first non-default
resolved code of the remaining causes fills in. -/
theorem codeGo_no_beat (l : List (Option Err)) (mE : Int) (mC : String)
    (hb : ∀ c ∈ l, ExitCode c ≤ mE) :
    codeGo l mE mC =
      if mC = DefaultErrorCode then firstNonDefaultCode l else mC := by
  induction l generalizing mC with
  | nil =>
    simp only [codeGo, firstNonDefaultCode]
    split <;> simp_all
  | cons c rest ih =>
    have hc : ¬ ExitCode c > mE := not_lt.2 (hb c (List.mem_cons_self c rest))
    have hrest : ∀ d ∈ rest, ExitCode d ≤ mE :=
      fun d hd => hb d (List.mem_cons_of_mem c hd)
    simp only [codeGo, if_neg hc]
    by_cases h1 : mC = DefaultErrorCode ∧ Code c ≠ DefaultErrorCode
    · rw [if_pos h1, ih (Code c) hrest, if_neg h1.2, if_pos h1.1,
        firstNonDefaultCode, if_pos h1.2]
    · rw [if_neg h1, ih mC hrest]
      by_cases h2 : mC = DefaultErrorCode
      · have h3 : ¬ Code c ≠ DefaultErrorCode := fun hne => h1 ⟨h2, hne⟩
        rw [if_pos h2, if_pos h2, firstNonDefaultCode, if_neg h3]
      · rw [if_neg h2, if_neg h2]

/-- Processing a prefix whose exit codes all stay below a bound leaves the
loop in some state whose running maximum is still below that bound. -/
theorem codeGo_below_bound (pre : List (Option Err)) (B : Int) :
    ∀ rest mE mC, mE < B → (∀ c ∈ pre, ExitCode c < B) →
      ∃ mE2 mC2, codeGo (pre ++ rest) mE mC = codeGo rest mE2 mC2 ∧ mE2 < B := by
  induction pre with
  | nil => exact fun rest mE mC hm _ => ⟨mE, mC, rfl, hm⟩
  | cons c pre ih =>
    intro rest mE mC hm hb
    have hc : ExitCode c < B := hb c (List.mem_cons_self c pre)
    have hpre : ∀ d ∈ pre, ExitCode d < B :=
      fun d hd => hb d (List.mem_cons_of_mem c hd)
    simp only [List.cons_append, codeGo]
    by_cases h1 : ExitCode c > mE
    · rw [if_pos h1]
      exact ih rest (ExitCode c) (Code c) hc hpre
    · rw [if_neg h1]
      by_cases h2 : mC = DefaultErrorCode ∧ Code c ≠ DefaultErrorCode
      · rw [if_pos h2]
        exact ih rest mE (Code c) hm hpre
      · rw [if_neg h2]
        exact ih rest mE mC hm hpre

def c2A : Option Err := some (.custom { bareCustom "a" with exitCodeCap := some 5 })
def c2B : Option Err :=
  some (.custom { bareCustom "b" with exitCodeCap := some 2, codeCap := some "ERR_X" })
def c2e : Err := .custom { bareCustom "e" with causesCap := some [c2A, c2B] }

/-- C2 counterexample: c2e lacks the code capability and has exactly two
causes; the first, c2A, strictly dominates on resolved exit status
(5 over 2) and its own resolved code is the default sentinel, yet
Code(c2e) is "ERR_X" — the resolved code of the strictly less severe
second cause — not the resolved code of the most severe cause as the
claim requires, even though exit statuses do not tie and a qualifying
cause exists. -/
theorem code_highest_cause_counterexample :
    codeCap c2e = none ∧ Causes (some c2e) = some [c2A, c2B] ∧
      ExitCode c2A = 5 ∧ ExitCode c2B = 2 ∧
      Code c2A = DefaultErrorCode ∧
      Code (some c2e) = "ERR_X" ∧ Code (some c2e) ≠ Code c2A := by
  refine ⟨rfl, rfl, by decide, by decide, ?_, ?_, ?_⟩ <;>
    simp [Code, codeGo, c2e, c2A, c2B, bareCustom, codeCap, Causes, causesCap,
      unwrapMultiCap, unwrapSingleCap, causeMethodCap, ExitCode, exitCodeCap,
      DefaultErrorCode, DefaultExitCode]

/-- C2 amended: for a non-nil error without the ErrorCode capability the
cause walk resolves as follows.  If no direct cause has a positive
resolved exit status, the result is the first non-default resolved code
among the causes in attachment order (default if none).  Otherwise, let c
be the first cause attaining the maximal resolved exit status: the result
is c's resolved code when that is not the default sentinel, and otherwise
the first non-default resolved code among the causes after c (ties and
earlier causes never override a non-default code of c, and causes before
c never contribute their codes at all). -/
theorem code_cause_walk_amended (e : Err) (hcode : codeCap e = none)
    (l : List (Option Err)) (hl : Causes (some e) = some l) :
    ((∀ c ∈ l, ExitCode c ≤ 0) → Code (some e) = firstNonDefaultCode l) ∧
    (∀ pre c post, l = pre ++ c :: post → 0 < ExitCode c →
      (∀ d ∈ pre, ExitCode d < ExitCode c) →
      (∀ d ∈ l, ExitCode d ≤ ExitCode c) →
      Code (some e) =
        if Code c ≠ DefaultErrorCode then Code c
        else firstNonDefaultCode post) := by
  have hstart : Code (some e) = codeGo l 0 DefaultErrorCode := by
    simp only [Code, hcode]
    split
    · rename_i hnone
      rw [hl] at hnone
      exact Option.noConfusion hnone
    · rename_i l2 hsome
      rw [hl] at hsome
      cases hsome
      rfl
  constructor
  · intro hb
    rw [hstart, codeGo_no_beat l 0 DefaultErrorCode hb, if_pos rfl]
  · intro pre c post hsplit hpos hpre hall
    subst hsplit
    obtain ⟨mE2, mC2, heq, hlt⟩ :=
      codeGo_below_bound pre (ExitCode c) (c :: post) 0 DefaultErrorCode hpos hpre
    have hpost : ∀ d ∈ post, ExitCode d ≤ ExitCode c := fun d hd =>
      hall d (List.mem_append_right pre (List.mem_cons_of_mem c hd))
    rw [hstart, heq]
    simp only [codeGo, if_pos hlt]
    rw [codeGo_no_beat post (ExitCode c) (Code c) hpost]
    by_cases hcd : Code c = DefaultErrorCode
    · rw [if_pos hcd, if_neg (by simp [hcd])]
    · rw [if_neg hcd, if_pos hcd]

theorem code_cause_walk_amended_witness :
    codeCap c2e = none ∧ Causes (some c2e) = some [c2A, c2B] ∧
      Code (some c2e) = "ERR_X" := by
  refine ⟨rfl, rfl, ?_⟩
  have h := (code_cause_walk_amended c2e rfl [c2A, c2B] rfl).2
    [] c2A [c2B] rfl (by decide)
    (by intro d hd; simp at hd)
    (by
      intro d hd
      simp only [List.mem_cons, List.mem_singleton] at hd
      rcases hd with rfl | rfl | h
      · exact le_refl _
      · decide
      · exact absurd h (List.not_mem_nil d))
  rw [h]
  simp [Code, codeGo, firstNonDefaultCode, c2A, c2B, bareCustom, codeCap,
    Causes, causesCap, unwrapMultiCap, unwrapSingleCap, causeMethodCap,
    DefaultErrorCode]

def r4 : FailData Err :=
  { time := 5, msg := "db failed", userMsg := "try again", domain := "db",
    code := "ERR_DB", exitCode := 3, httpStatusCode := 503,
    causes := [eC1cap], associated := [eC7inner], tags := ["t1", "t2"],
    attrs := [("k", GoVal.vint 1)],
    traceId := "0af7651916cd43dd8448eb211c80319c",
    spanId := "b7ad6b7169203331" }

/-- C4: evaluating the round trip at a concrete finalized record shows
the bug: Fail.Clone (invoked by From on a Fail source) copies msg,
userMsg, code, exitCode, httpStatusCode and the four collections, but
omits time, domain, traceId and spanId from the composite literal, so
deriving and re-finalizing zeroes exactly those four facets while its own
doc comment promises that all fields are copied. -/
theorem clone_roundtrip_drops_fields :
    (From (some (Err.fail r4))).map Build =
      Except.ok { r4 with time := 0, domain := "", traceId := "", spanId := "" } ∧
    r4.time = 5 ∧ r4.domain = "db" ∧
    r4.traceId = "0af7651916cd43dd8448eb211c80319c" ∧
    r4.spanId = "b7ad6b7169203331" :=
  ⟨rfl, rfl, rfl, rfl, rfl⟩

/-- C9: deriving a builder from a nil source error aborts the operation
(the panic is modelled as Except.error) and never yields a builder, while
every non-nil source yields a builder normally. -/
theorem from_nil_aborts :
    From none = Except.error "cannot create a Fail from a nil error" ∧
    ∀ e : Err, ∃ b : Builder, From (some e) = Except.ok b := by
  refine ⟨rfl, fun e => ?_⟩
  cases e with
  | fail f => exact ⟨Clone f, rfl⟩
  | custom c => exact ⟨_, rfl⟩

/-- C10: wrapping a nil error is a no-op returning nil, for every message
and at every instant, rather than creating a new error record. -/
theorem wrap_nil_returns_nil (now : Nat) (msg : String) :
    Wrap now none msg = none := rfl

theorem getD_append_of_lt {α} (l l' : List α) (d : α) (r : Nat)
    (h : r < l.length) : (l ++ l').getD r d = l.getD r d := by
  simp [List.getD, List.getElem?_append_left h]

theorem getD_append_self {α} (l : List α) (v d : α) :
    (l ++ [v]).getD l.length d = v := by
  simp [List.getD]

/-- Writing into the freshly allocated last cell never changes a read of
an older cell. -/
theorem getD_set_append {α} (l : List α) (v w d : α) (r : Nat)
    (h : r < l.length) : ((l ++ [v]).set l.length w).getD r d = l.getD r d := by
  simp [List.getD, List.getElem?_set_ne (show l.length ≠ r by omega),
    List.getElem?_append_left h]

def e5a : Option Err := some (.custom (bareCustom "x"))
def e5b : Option Err := some (.custom (bareCustom "y"))
def σ5 : Store := { errSlices := [[e5a], []], tagSets := [["t"]], attrMaps := [[]] }
def f5 : HFail :=
  { code := "C", causesRef := 0, associatedRef := 1, tagsRef := 0, attrsRef := 0 }

/-- C5 counterexample: ErrorCauses returns the record's internal slice
reference itself, so after the caller overwrites an element of the
returned slice, the causes subsequently observed on the record change
(the single cause's message flips from "x" to "y"): the accessor is not a
defensive copy. -/
theorem errorCauses_not_defensive_counterexample :
    (ErrorCausesH σ5 f5).1 = f5.causesRef ∧
    (((ErrorCausesH σ5 f5).2.writeErr (ErrorCausesH σ5 f5).1 [e5b]).readErr
        f5.causesRef).map (Option.map errorText) = [some "y"] ∧
    (σ5.readErr f5.causesRef).map (Option.map errorText) = [some "x"] :=
  ⟨rfl, rfl, rfl⟩

/-- C5 amended: ErrorAssociated, ErrorTags and ErrorAttributes each return
a freshly allocated copy, so any mutation the caller performs through the
returned collection leaves every facet observed on the record unchanged;
ErrorCauses is the exception — it returns the record's internal slice
reference, through which element mutations reach the record. -/
theorem accessors_defensive_amended (σ : Store) (f : HFail)
    (hc : f.causesRef < σ.errSlices.length)
    (ha : f.associatedRef < σ.errSlices.length)
    (ht : f.tagsRef < σ.tagSets.length)
    (hat : f.attrsRef < σ.attrMaps.length)
    (v : List (Option Err)) (vs : List String) (va : List (String × GoVal)) :
    observe ((ErrorAssociatedH σ f).2.writeErr (ErrorAssociatedH σ f).1 v) f
      = observe σ f ∧
    observe ((ErrorTagsH σ f).2.writeTags (ErrorTagsH σ f).1 vs) f
      = observe σ f ∧
    observe ((ErrorAttributesH σ f).2.writeAttrs (ErrorAttributesH σ f).1 va) f
      = observe σ f ∧
    (ErrorCausesH σ f).1 = f.causesRef := by
  refine ⟨?_, ?_, ?_, rfl⟩
  · simp only [observe, ErrorAssociatedH, Store.allocErr, Store.writeErr,
      Store.readErr, Store.readTags, Store.readAttrs]
    rw [getD_set_append _ _ _ _ _ hc, getD_set_append _ _ _ _ _ ha]
  · simp only [observe, ErrorTagsH, Store.allocTags, Store.writeTags,
      Store.readErr, Store.readTags, Store.readAttrs]
    rw [getD_set_append _ _ _ _ _ ht]
  · simp only [observe, ErrorAttributesH, Store.allocAttrs, Store.writeAttrs,
      Store.readErr, Store.readTags, Store.readAttrs]
    rw [getD_set_append _ _ _ _ _ hat]

theorem accessors_defensive_amended_witness :
    f5.associatedRef < σ5.errSlices.length ∧
    observe ((ErrorAssociatedH σ5 f5).2.writeErr (ErrorAssociatedH σ5 f5).1 [e5b]) f5
      = observe σ5 f5 :=
  ⟨by decide,
    (accessors_defensive_amended σ5 f5 (by decide) (by decide) (by decide)
      (by decide) [e5b] [] []).1⟩

def σ6 : Store := { errSlices := [[]], tagSets := [[]], attrMaps := [[]] }
def b6 : HFail :=
  { code := "ERR_UNKNOWN", causesRef := 0, associatedRef := 0, tagsRef := 0,
    attrsRef := 0 }

/-- C6 counterexample: applying the Tag setter to builder b6 returns a
builder whose fields are identical to b6 (the change lives entirely in
the shared tag map cell), and in the resulting state the ORIGINAL builder
b6 observes the tag set ["x"] where it observed the empty set before: the
observable state of the original builder is changed, so two chains
branched from the same builder value are not independent. -/
theorem builder_tag_setter_counterexample :
    (TagSliceH σ6 b6 ["x"]).1 = b6 ∧
    (TagSliceH σ6 b6 ["x"]).2.readTags b6.tagsRef = ["x"] ∧
    σ6.readTags b6.tagsRef = [] :=
  ⟨rfl, rfl, rfl⟩

/-- C6 amended: setters updating scalar fields (Code) return a new
builder value carrying the change and leave the store — hence everything
observable through the original builder — untouched; the cause setter
appends through a fresh backing cell, so the original builder's
observation is also unchanged while the returned builder sees the
extended cause list; but the map-backed Tag and Attribute setters return
the builder fields unchanged and realize their change by writing through
the tag/attribute map shared with the original builder, so branched
chains are independent only for the scalar and slice-backed facets. -/
theorem builder_setters_amended (σ : Store) (b : HFail) (s : String)
    (errs : List (Option Err)) (ts : List String) (am : List (String × GoVal))
    (hs : s ≠ "")
    (hcb : b.causesRef < σ.errSlices.length)
    (hab : b.associatedRef < σ.errSlices.length) :
    ((CodeH σ b s).2 = σ ∧ (CodeH σ b s).1 = { b with code := s }) ∧
    (observe (CauseSliceH σ b errs).2 b = observe σ b ∧
      (CauseSliceH σ b errs).2.readErr (CauseSliceH σ b errs).1.causesRef
        = σ.readErr b.causesRef ++ errs.filter (·.isSome)) ∧
    ((TagSliceH σ b ts).1 = b ∧ (AttributeMapH σ b am).1 = b) := by
  refine ⟨⟨by simp [CodeH, hs], by simp [CodeH, hs]⟩, ⟨?_, ?_⟩, rfl, rfl⟩
  · simp only [observe, CauseSliceH, Store.allocErr, Store.readErr,
      Store.readTags, Store.readAttrs]
    rw [getD_append_of_lt _ _ _ _ hcb, getD_append_of_lt _ _ _ _ hab]
  · simp only [CauseSliceH, Store.allocErr, Store.readErr]
    exact getD_append_self _ _ _

theorem builder_setters_amended_witness :
    ("C2" : String) ≠ "" ∧ b6.causesRef < σ6.errSlices.length ∧
    observe (CauseSliceH σ6 b6 [e5a, none]).2 b6 = observe σ6 b6 ∧
    (CodeH σ6 b6 "C2").1.code = "C2" := by
  have h := builder_setters_amended σ6 b6 "C2" [e5a, none] ["t"] []
    (by decide) (by decide) (by decide)
  exact ⟨by decide, by decide, h.2.1.1, by rw [h.1.2]⟩

end FailSpec
